import Mathlib

/-!
Verification development for the BlendingWaves repository: a shallow embedding
of the client-side liquid-displacement simulation (src/main.js) and of the Go
content server (src/main.go), with theorems settling the specified properties.

GLSL floating point is modelled over the rationals.  The GLSL functions
`distance` and `length` denote the Euclidean norm, whose value is irrational in
general; the embedding therefore passes each such norm to a shader as an
explicit parameter `dist` (resp. `dispLen`) constrained in the theorems by
`0 ≤ dist` and `dist * dist = <squared norm from the source expression>`.
-/

namespace BW

/-- A two-component vector of rationals, modelling GLSL `vec2`. -/
structure Vec2 where
  x : ℚ
  y : ℚ
  deriving DecidableEq

/-- A four-component vector of rationals, modelling GLSL `vec4` with components
`r`, `g`, `b`, `a`. -/
structure Vec4 where
  r : ℚ
  g : ℚ
  b : ℚ
  a : ℚ
  deriving DecidableEq

/-- Componentwise difference of two `Vec2`, modelling `THREE.Vector2.sub`. -/
def vsub (u v : Vec2) : Vec2 :=
  ⟨u.x - v.x, u.y - v.y⟩

/-- Scaling a `vec4` texel by a scalar, as in `texture2D(...) * 0.95`. -/
def smul4 (c : ℚ) (v : Vec4) : Vec4 :=
  ⟨v.r * c, v.g * c, v.b * c, v.a * c⟩

/-- Squared Euclidean norm of a `vec2`. -/
def magSq2 (v : Vec2) : ℚ :=
  v.x * v.x + v.y * v.y

/-- Squared Euclidean norm of a `vec4` texel. -/
def magSq4 (v : Vec4) : ℚ :=
  v.r * v.r + v.g * v.g + v.b * v.b + v.a * v.a

/-- GLSL `clamp(x, minVal, maxVal) = min(max(x, minVal), maxVal)`. -/
def glslClamp (x minVal maxVal : ℚ) : ℚ :=
  min (max x minVal) maxVal

/-- The Hermite polynomial `t * t * (3 - 2 * t)` applied by GLSL `smoothstep`
after clamping. -/
def smoothstepCore (t : ℚ) : ℚ :=
  t * t * (3 - 2 * t)

/-- GLSL `smoothstep(edge0, edge1, x)`:
`t = clamp((x - edge0) / (edge1 - edge0), 0, 1); return t * t * (3 - 2 * t)`.
The shaders use it with `edge0 > edge1` as a falloff. -/
def smoothstep (edge0 edge1 x : ℚ) : ℚ :=
  smoothstepCore (glslClamp ((x - edge0) / (edge1 - edge0)) 0 1)

/-- The displacement-update fragment shader (src/main.js lines 122-138),
evaluated at one fragment.  `lastFrameVal` is `texture2D(uLastFrame, vUv)`;
`dist` stands for `distance(correctedUv, correctedMouse)` (see
`correctedDistSq` for the squared value computed from the source). -/
def displacementUpdateFrag (lastFrameVal : Vec4) (uMouseVelocity : Vec2)
    (dist : ℚ) : Vec4 :=
  let lastDisp : Vec4 := smul4 0.95 lastFrameVal
  let radius : ℚ := 0.2
  let strength : ℚ := smoothstep radius 0 dist
  { r := lastDisp.r + uMouseVelocity.x * strength * 2.5
    g := lastDisp.g + uMouseVelocity.y * strength * 2.5
    b := lastDisp.b
    a := lastDisp.a }

/-- The squared aspect-ratio-corrected distance between the fragment coordinate
and the pointer, from src/main.js lines 127-130:
`aspectRatio = uResolution.x / uResolution.y`,
`correctedUv = vec2(vUv.x * aspectRatio, vUv.y)`,
`correctedMouse = vec2(uMousePos.x * aspectRatio, uMousePos.y)`,
`dist = distance(correctedUv, correctedMouse)`. -/
def correctedDistSq (vUv uMousePos uResolution : Vec2) : ℚ :=
  let aspectRatio := uResolution.x / uResolution.y
  let correctedUv : Vec2 := ⟨vUv.x * aspectRatio, vUv.y⟩
  let correctedMouse : Vec2 := ⟨uMousePos.x * aspectRatio, uMousePos.y⟩
  magSq2 (vsub correctedUv correctedMouse)

/-- The brush falloff weight of the update shader as a function of the
aspect-corrected distance: `smoothstep(radius, 0.0, dist)` with radius `0.2`. -/
def brushStrength (dist : ℚ) : ℚ :=
  smoothstep 0.2 0 dist

/-- The vector added to the two displacement components by one update-shader
application, isolated by running the shader on the zero texel. -/
def brushContribution (vel : Vec2) (dist : ℚ) : Vec2 :=
  ⟨(displacementUpdateFrag ⟨0, 0, 0, 0⟩ vel dist).r,
   (displacementUpdateFrag ⟨0, 0, 0, 0⟩ vel dist).g⟩

lemma glslClamp01_nonneg (x : ℚ) : 0 ≤ glslClamp x 0 1 :=
  le_min (le_max_right x 0) zero_le_one

lemma glslClamp01_le_one (x : ℚ) : glslClamp x 0 1 ≤ 1 :=
  min_le_right _ _

lemma glslClamp01_mono {x y : ℚ} (h : x ≤ y) : glslClamp x 0 1 ≤ glslClamp y 0 1 :=
  min_le_min (max_le_max h le_rfl) le_rfl

lemma smoothstepCore_mono {s t : ℚ} (h0 : 0 ≤ s) (hst : s ≤ t) (h1 : t ≤ 1) :
    smoothstepCore s ≤ smoothstepCore t := by
  unfold smoothstepCore
  nlinarith [mul_nonneg h0 h0, mul_nonneg (mul_nonneg h0 h0) h0,
    sq_nonneg (t - s), mul_nonneg (sub_nonneg.2 hst) (sub_nonneg.2 h1)]

lemma smoothstep_falloff_antitone {e x y : ℚ} (he : 0 < e) (hxy : x ≤ y) :
    smoothstep e 0 y ≤ smoothstep e 0 x := by
  unfold smoothstep
  apply smoothstepCore_mono (glslClamp01_nonneg _) _ (glslClamp01_le_one _)
  apply glslClamp01_mono
  have hne : (0 : ℚ) - e < 0 := by linarith
  rw [div_le_div_right_of_neg hne]
  linarith

lemma smoothstep_falloff_zero {e x : ℚ} (he : 0 < e) (hx : e ≤ x) :
    smoothstep e 0 x = 0 := by
  unfold smoothstep glslClamp
  have harg : (x - e) / (0 - e) ≤ 0 := by
    apply div_nonpos_of_nonneg_of_nonpos <;> linarith
  rw [max_eq_right harg, min_eq_left (by norm_num : (0 : ℚ) ≤ 1)]
  unfold smoothstepCore
  ring

/-- C1: the displacement update multiplies the previous texel by the decay
factor 0.95 and then adds to the two displacement components a contribution
proportional to the pointer velocity, weighted by `brushStrength` of the
aspect-ratio-corrected distance, a smooth falloff with full strength 1 at
distance 0, strictly intermediate strength in between, and strength 0 from
distance 0.2 on.  The decay applies only to the prior state, never to the new
contribution. -/
theorem C1_update_decay_then_brush
    (vUv uMousePos uResolution : Vec2) (lastVal : Vec4) (vel : Vec2) (dist : ℚ)
    (hd : 0 ≤ dist)
    (hdist : dist * dist = correctedDistSq vUv uMousePos uResolution) :
    displacementUpdateFrag lastVal vel dist =
      { r := 0.95 * lastVal.r + vel.x * brushStrength dist * 2.5
        g := 0.95 * lastVal.g + vel.y * brushStrength dist * 2.5
        b := 0.95 * lastVal.b
        a := 0.95 * lastVal.a }
    ∧ brushStrength 0 = 1
    ∧ (∀ e : ℚ, 0.2 ≤ e → brushStrength e = 0)
    ∧ (∀ e₁ e₂ : ℚ, e₁ ≤ e₂ → brushStrength e₂ ≤ brushStrength e₁)
    ∧ brushStrength 0.1 = 0.5 := by
  refine ⟨?_, ?_, ?_, ?_, ?_⟩
  · unfold displacementUpdateFrag smul4 brushStrength
    simp only [Vec4.mk.injEq]
    refine ⟨by ring, by ring, by ring, by ring⟩
  · norm_num [brushStrength, smoothstep, smoothstepCore, glslClamp, min_def, max_def]
  · intro e he
    unfold brushStrength
    exact smoothstep_falloff_zero (by norm_num) he
  · intro e₁ e₂ h
    exact smoothstep_falloff_antitone (by norm_num) h
  · norm_num [brushStrength, smoothstep, smoothstepCore, glslClamp, min_def, max_def]

/-- Witness for C1 at the pointer position itself (corrected distance 0),
with resolution 16 by 9. -/
theorem C1_update_decay_then_brush_witness :
    displacementUpdateFrag ⟨1, 2, 3, 4⟩ ⟨1, 1⟩ 0 =
      { r := 0.95 * 1 + 1 * brushStrength 0 * 2.5
        g := 0.95 * 2 + 1 * brushStrength 0 * 2.5
        b := 0.95 * 3
        a := 0.95 * 4 }
    ∧ brushStrength 0 = 1
    ∧ (∀ e : ℚ, 0.2 ≤ e → brushStrength e = 0)
    ∧ (∀ e₁ e₂ : ℚ, e₁ ≤ e₂ → brushStrength e₂ ≤ brushStrength e₁)
    ∧ brushStrength 0.1 = 0.5 :=
  C1_update_decay_then_brush ⟨0.5, 0.5⟩ ⟨0.5, 0.5⟩ ⟨16, 9⟩ ⟨1, 2, 3, 4⟩ ⟨1, 1⟩ 0
    le_rfl (by norm_num [correctedDistSq, magSq2, vsub])

/-- Iterated decay-only updates: `n` applications of the update shader with
zero pointer velocity, at a fixed (arbitrary) distance from the pointer. -/
def decayIter : ℕ → ℚ → Vec4 → Vec4
  | 0, _, v => v
  | n + 1, d, v => displacementUpdateFrag (decayIter n d v) ⟨0, 0⟩ d

lemma decayOnly_eq (v : Vec4) (d : ℚ) :
    displacementUpdateFrag v ⟨0, 0⟩ d = smul4 0.95 v := by
  unfold displacementUpdateFrag smul4
  simp only [Vec4.mk.injEq]
  refine ⟨by ring, by ring, by ring, by ring⟩

lemma decayIter_closed (d : ℚ) (v : Vec4) (n : ℕ) :
    decayIter n d v = smul4 ((0.95 : ℚ) ^ n) v := by
  induction n with
  | zero =>
    cases v
    simp [decayIter, smul4]
  | succ n ih =>
    rw [decayIter, ih, decayOnly_eq]
    unfold smul4
    simp only [Vec4.mk.injEq]
    refine ⟨by ring, by ring, by ring, by ring⟩

lemma magSq4_smul (c : ℚ) (v : Vec4) :
    magSq4 (smul4 c v) = c * c * magSq4 v := by
  unfold magSq4 smul4
  ring

lemma magSq4_nonneg (v : Vec4) : 0 ≤ magSq4 v := by
  unfold magSq4
  nlinarith [mul_self_nonneg v.r, mul_self_nonneg v.g, mul_self_nonneg v.b,
    mul_self_nonneg v.a]

lemma magSq4_pos {v : Vec4} (hv : v ≠ ⟨0, 0, 0, 0⟩) : 0 < magSq4 v := by
  rcases (magSq4_nonneg v).lt_or_eq with h | h
  · exact h
  · exfalso
    apply hv
    have hr : v.r * v.r = 0 :=
      le_antisymm (by unfold magSq4 at h; nlinarith [mul_self_nonneg v.g,
        mul_self_nonneg v.b, mul_self_nonneg v.a]) (mul_self_nonneg v.r)
    have hg : v.g * v.g = 0 :=
      le_antisymm (by unfold magSq4 at h; nlinarith [mul_self_nonneg v.r,
        mul_self_nonneg v.b, mul_self_nonneg v.a]) (mul_self_nonneg v.g)
    have hb : v.b * v.b = 0 :=
      le_antisymm (by unfold magSq4 at h; nlinarith [mul_self_nonneg v.r,
        mul_self_nonneg v.g, mul_self_nonneg v.a]) (mul_self_nonneg v.b)
    have ha : v.a * v.a = 0 :=
      le_antisymm (by unfold magSq4 at h; nlinarith [mul_self_nonneg v.r,
        mul_self_nonneg v.g, mul_self_nonneg v.b]) (mul_self_nonneg v.a)
    cases v
    simp only [Vec4.mk.injEq]
    exact ⟨mul_self_eq_zero.mp hr, mul_self_eq_zero.mp hg,
      mul_self_eq_zero.mp hb, mul_self_eq_zero.mp ha⟩

/-- C2: under decay-only updates (zero pointer velocity) the squared magnitude
of a nonzero texel strictly decreases at every step, the zero texel is a fixed
point, and the magnitude eventually falls below any positive threshold. -/
theorem C2_decay_only_strict_decrease (d : ℚ) (v : Vec4) :
    (v ≠ ⟨0, 0, 0, 0⟩ →
      ∀ n : ℕ, magSq4 (decayIter (n + 1) d v) < magSq4 (decayIter n d v))
    ∧ displacementUpdateFrag ⟨0, 0, 0, 0⟩ ⟨0, 0⟩ d = ⟨0, 0, 0, 0⟩
    ∧ (∀ ε : ℚ, 0 < ε → ∃ N : ℕ, ∀ n : ℕ, N ≤ n →
        magSq4 (decayIter n d v) < ε) := by
  refine ⟨?_, ?_, ?_⟩
  · intro hv n
    have hM : 0 < magSq4 v := magSq4_pos hv
    rw [decayIter_closed, decayIter_closed, magSq4_smul, magSq4_smul]
    have hpow : (0.95 : ℚ) ^ (n + 1) < (0.95 : ℚ) ^ n :=
      pow_lt_pow_right_of_lt_one₀ (by norm_num) (by norm_num) n.lt_succ_self
    have hpos : (0 : ℚ) < (0.95 : ℚ) ^ (n + 1) := by positivity
    have hsq : (0.95 : ℚ) ^ (n + 1) * (0.95 : ℚ) ^ (n + 1) <
        (0.95 : ℚ) ^ n * (0.95 : ℚ) ^ n :=
      mul_self_lt_mul_self (le_of_lt hpos) hpow
    exact mul_lt_mul_of_pos_right hsq hM
  · rw [decayOnly_eq]
    unfold smul4
    norm_num
  · intro ε hε
    have hM : 0 ≤ magSq4 v := magSq4_nonneg v
    have hM1 : (0 : ℚ) < magSq4 v + 1 := by linarith
    obtain ⟨N, hN⟩ := exists_pow_lt_of_lt_one (x := ε / (magSq4 v + 1))
      (y := (0.95 : ℚ)) (div_pos hε hM1) (by norm_num)
    refine ⟨N, fun n hn => ?_⟩
    rw [decayIter_closed, magSq4_smul]
    have h0n : (0 : ℚ) ≤ (0.95 : ℚ) ^ n := by positivity
    have h1n : (0.95 : ℚ) ^ n ≤ 1 := pow_le_one₀ (by norm_num) (by norm_num)
    have hmono : (0.95 : ℚ) ^ n ≤ (0.95 : ℚ) ^ N :=
      pow_le_pow_of_le_one (by norm_num) (by norm_num) hn
    have hchain1 : (0.95 : ℚ) ^ n * (0.95 : ℚ) ^ n * magSq4 v ≤
        (0.95 : ℚ) ^ N * magSq4 v := by
      have : (0.95 : ℚ) ^ n * (0.95 : ℚ) ^ n ≤ (0.95 : ℚ) ^ N := by nlinarith
      exact mul_le_mul_of_nonneg_right this hM
    have hcancel : ε / (magSq4 v + 1) * (magSq4 v + 1) = ε :=
      div_mul_cancel₀ ε (ne_of_gt hM1)
    have hδ : (0 : ℚ) < ε / (magSq4 v + 1) := div_pos hε hM1
    have hchain2 : (0.95 : ℚ) ^ N * magSq4 v < ε := by
      have h2 : (0.95 : ℚ) ^ N * magSq4 v ≤
          ε / (magSq4 v + 1) * magSq4 v :=
        mul_le_mul_of_nonneg_right (le_of_lt hN) hM
      nlinarith
    linarith

/-- Witness for C2 with the texel `(1, 0, 0, 0)` and threshold 1. -/
theorem C2_decay_only_strict_decrease_witness :
    magSq4 (decayIter 1 0 ⟨1, 0, 0, 0⟩) < magSq4 (decayIter 0 0 ⟨1, 0, 0, 0⟩)
    ∧ displacementUpdateFrag ⟨0, 0, 0, 0⟩ ⟨0, 0⟩ 0 = ⟨0, 0, 0, 0⟩
    ∧ ∃ N : ℕ, ∀ n : ℕ, N ≤ n → magSq4 (decayIter n 0 ⟨1, 0, 0, 0⟩) < 1 :=
  have h := C2_decay_only_strict_decrease 0 ⟨1, 0, 0, 0⟩
  ⟨h.1 (by norm_num [Vec4.mk.injEq]) 0, h.2.1, h.2.2 1 one_pos⟩

lemma magSq2_pos {v : Vec2} (hv : v ≠ ⟨0, 0⟩) : 0 < magSq2 v := by
  have hnn : 0 ≤ magSq2 v := by
    unfold magSq2
    nlinarith [mul_self_nonneg v.x, mul_self_nonneg v.y]
  rcases lt_or_eq_of_le hnn with h | h
  · exact h
  · exfalso
    apply hv
    have hx : v.x * v.x = 0 :=
      le_antisymm (by unfold magSq2 at h; nlinarith [mul_self_nonneg v.y])
        (mul_self_nonneg v.x)
    have hy : v.y * v.y = 0 :=
      le_antisymm (by unfold magSq2 at h; nlinarith [mul_self_nonneg v.x])
        (mul_self_nonneg v.y)
    cases v
    simp only [Vec2.mk.injEq]
    exact ⟨mul_self_eq_zero.mp hx, mul_self_eq_zero.mp hy⟩

/-- C3 as stated is false at the zero velocity vector: with velocity `(0, 0)`
the contribution at distance 0 is the zero vector, not strictly larger in
(squared) magnitude than the zero contribution at distance `0.2`. -/
theorem C3_counterexample_zero_velocity :
    ¬ (magSq2 (brushContribution ⟨0, 0⟩ 0.2) <
        magSq2 (brushContribution ⟨0, 0⟩ 0)) := by
  have h0 : brushContribution ⟨0, 0⟩ 0.2 = brushContribution ⟨0, 0⟩ 0 := by
    unfold brushContribution displacementUpdateFrag smul4
    simp only [Vec2.mk.injEq]
    refine ⟨by ring, by ring⟩
  rw [h0]
  exact lt_irrefl _

/-- C3 amended: for every nonzero pointer velocity, the brush contribution at
distance 0 is strictly larger in squared magnitude than the contribution at any
distance at or beyond the radius 0.2; at such distances the contribution is the
zero vector for every velocity. -/
theorem C3_brush_contribution_amended :
    (∀ vel : Vec2, vel ≠ ⟨0, 0⟩ → ∀ d : ℚ, 0.2 ≤ d →
      magSq2 (brushContribution vel d) < magSq2 (brushContribution vel 0))
    ∧ (∀ (vel : Vec2) (d : ℚ), 0.2 ≤ d → brushContribution vel d = ⟨0, 0⟩) := by
  have hzero : ∀ (vel : Vec2) (d : ℚ), 0.2 ≤ d →
      brushContribution vel d = ⟨0, 0⟩ := by
    intro vel d hd
    have hs : smoothstep 0.2 0 d = 0 := smoothstep_falloff_zero (by norm_num) hd
    unfold brushContribution displacementUpdateFrag smul4
    simp only [hs, Vec2.mk.injEq]
    refine ⟨by ring, by ring⟩
  have hone : smoothstep 0.2 0 0 = 1 := by
    norm_num [smoothstep, smoothstepCore, glslClamp, min_def, max_def]
  refine ⟨?_, hzero⟩
  intro vel hvel d hd
  rw [hzero vel d hd]
  have hpos : 0 < magSq2 vel := magSq2_pos hvel
  have hval : magSq2 (brushContribution vel 0) = 6.25 * magSq2 vel := by
    unfold brushContribution displacementUpdateFrag smul4 magSq2
    simp only [hone]
    ring
  rw [hval]
  have hlhs : magSq2 (⟨0, 0⟩ : Vec2) = 0 := by
    unfold magSq2
    ring
  rw [hlhs]
  nlinarith

/-- Witness for the amended C3 at velocity `(1, 0)` and distance `0.2`. -/
theorem C3_brush_contribution_amended_witness :
    magSq2 (brushContribution ⟨1, 0⟩ 0.2) < magSq2 (brushContribution ⟨1, 0⟩ 0)
    ∧ brushContribution ⟨1, 0⟩ 0.2 = ⟨0, 0⟩ :=
  have h := C3_brush_contribution_amended
  ⟨h.1 ⟨1, 0⟩ (by norm_num [Vec2.mk.injEq]) 0.2 le_rfl, h.2 ⟨1, 0⟩ 0.2 le_rfl⟩

/-- GLSL `mix(x, y, a) = x * (1 - a) + y * a`. -/
def mixQ (x y a : ℚ) : ℚ :=
  x * (1 - a) + y * a

/-- Componentwise GLSL `mix` on `vec4`. -/
def mix4 (u v : Vec4) (a : ℚ) : Vec4 :=
  ⟨mixQ u.r v.r a, mixQ u.g v.g a, mixQ u.b v.b a, mixQ u.a v.a a⟩

/-- The two-component displacement read by the composite shader:
`texture2D(uDisplacementMap, vUv).rg`. -/
def dispVec (uDisplacementMap : Vec2 → Vec4) (vUv : Vec2) : Vec2 :=
  ⟨(uDisplacementMap vUv).r, (uDisplacementMap vUv).g⟩

/-- Sample coordinate offset by a scaled displacement, as in
`vUv + displacement * c`. -/
def offsetBy (vUv d : Vec2) (c : ℚ) : Vec2 :=
  ⟨vUv.x + d.x * c, vUv.y + d.y * c⟩

/-- A color with its `rgb` components multiplied by `k` and its alpha kept,
as in `bottomColor.rgb *= 0.2`. -/
def darken (col : Vec4) (k : ℚ) : Vec4 :=
  ⟨col.r * k, col.g * k, col.b * k, col.a⟩

/-- A color with its alpha channel replaced, as in `topColor.a = ...`. -/
def withAlpha (col : Vec4) (al : ℚ) : Vec4 :=
  ⟨col.r, col.g, col.b, al⟩

/-- The composite fragment shader (src/main.js lines 156-174), evaluated at
one fragment.  Textures are modelled as functions from coordinates to texels;
`dispLen` stands for `length(displacement)`, constrained in the theorems by
`0 ≤ dispLen` and `dispLen * dispLen = magSq2 (dispVec uDisplacementMap vUv)`. -/
def finalRenderFrag (uDisplacementMap uTopTexture uBottomTexture : Vec2 → Vec4)
    (vUv : Vec2) (dispLen : ℚ) : Vec4 :=
  let displacement : Vec2 := dispVec uDisplacementMap vUv
  let topUV : Vec2 := ⟨vUv.x + displacement.x * 0.1, vUv.y + displacement.y * 0.1⟩
  let topColor : Vec4 := uTopTexture topUV
  let bottomUV : Vec2 := ⟨vUv.x + displacement.x * 0.05, vUv.y + displacement.y * 0.05⟩
  let bottomColor0 : Vec4 := uBottomTexture bottomUV
  let bottomColor : Vec4 :=
    ⟨bottomColor0.r * 0.2, bottomColor0.g * 0.2, bottomColor0.b * 0.2, bottomColor0.a⟩
  let displacementAmount : ℚ := dispLen
  let alpha : ℚ := smoothstep 0.1 0 displacementAmount
  mix4 bottomColor ⟨topColor.r, topColor.g, topColor.b, alpha⟩ alpha

lemma smoothstep_tenth_at_zero : smoothstep 0.1 0 0 = 1 := by
  norm_num [smoothstep, smoothstepCore, glslClamp, min_def, max_def]

/-- C4: the composite pass offsets the top sample by the displacement scaled by
0.1 and the bottom sample by the same displacement scaled by 0.05 (the top
offset is exactly twice the bottom offset in each coordinate), multiplies the
bottom layer color by 0.2, and blends bottom and top linearly by the computed
top opacity. -/
theorem C4_composite_structure (dmap ttex btex : Vec2 → Vec4) (vUv : Vec2)
    (dispLen : ℚ) (hl : 0 ≤ dispLen)
    (hsq : dispLen * dispLen = magSq2 (dispVec dmap vUv)) :
    finalRenderFrag dmap ttex btex vUv dispLen =
      mix4 (darken (btex (offsetBy vUv (dispVec dmap vUv) 0.05)) 0.2)
        (withAlpha (ttex (offsetBy vUv (dispVec dmap vUv) 0.1))
          (smoothstep 0.1 0 dispLen))
        (smoothstep 0.1 0 dispLen)
    ∧ (offsetBy vUv (dispVec dmap vUv) 0.1).x - vUv.x =
        2 * ((offsetBy vUv (dispVec dmap vUv) 0.05).x - vUv.x)
    ∧ (offsetBy vUv (dispVec dmap vUv) 0.1).y - vUv.y =
        2 * ((offsetBy vUv (dispVec dmap vUv) 0.05).y - vUv.y) := by
  refine ⟨rfl, ?_, ?_⟩
  · unfold offsetBy
    ring
  · unfold offsetBy
    ring

/-- Witness for C4 with a constant displacement of length 0.05 and concrete
textures. -/
theorem C4_composite_structure_witness :
    finalRenderFrag (fun _ => ⟨0.03, 0.04, 0, 0⟩) (fun p => ⟨p.x, p.y, 0, 1⟩)
        (fun p => ⟨1, p.x, p.y, 1⟩) ⟨0.5, 0.5⟩ 0.05 =
      mix4 (darken ((fun p : Vec2 => (⟨1, p.x, p.y, 1⟩ : Vec4))
          (offsetBy ⟨0.5, 0.5⟩ (dispVec (fun _ => ⟨0.03, 0.04, 0, 0⟩) ⟨0.5, 0.5⟩) 0.05)) 0.2)
        (withAlpha ((fun p : Vec2 => (⟨p.x, p.y, 0, 1⟩ : Vec4))
          (offsetBy ⟨0.5, 0.5⟩ (dispVec (fun _ => ⟨0.03, 0.04, 0, 0⟩) ⟨0.5, 0.5⟩) 0.1))
          (smoothstep 0.1 0 0.05))
        (smoothstep 0.1 0 0.05)
    ∧ (offsetBy ⟨0.5, 0.5⟩ (dispVec (fun _ => ⟨0.03, 0.04, 0, 0⟩) ⟨0.5, 0.5⟩) 0.1).x - (0.5 : ℚ) =
        2 * ((offsetBy ⟨0.5, 0.5⟩ (dispVec (fun _ => ⟨0.03, 0.04, 0, 0⟩) ⟨0.5, 0.5⟩) 0.05).x - 0.5)
    ∧ (offsetBy ⟨0.5, 0.5⟩ (dispVec (fun _ => ⟨0.03, 0.04, 0, 0⟩) ⟨0.5, 0.5⟩) 0.1).y - (0.5 : ℚ) =
        2 * ((offsetBy ⟨0.5, 0.5⟩ (dispVec (fun _ => ⟨0.03, 0.04, 0, 0⟩) ⟨0.5, 0.5⟩) 0.05).y - 0.5) :=
  C4_composite_structure (fun _ => ⟨0.03, 0.04, 0, 0⟩) (fun p => ⟨p.x, p.y, 0, 1⟩)
    (fun p => ⟨1, p.x, p.y, 1⟩) ⟨0.5, 0.5⟩ 0.05 (by norm_num)
    (by norm_num [dispVec, magSq2])

/-- C5: with a displacement field that is zero everywhere, the composite pass
returns the top texture sample at the unmodified coordinate with alpha 1; the
bottom texture does not occur in the result (the equation holds for every
bottom texture). -/
theorem C5_composite_zero_field (dmap ttex btex : Vec2 → Vec4) (vUv : Vec2)
    (dispLen : ℚ) (hzero : ∀ p : Vec2, dispVec dmap p = ⟨0, 0⟩)
    (hl : 0 ≤ dispLen)
    (hsq : dispLen * dispLen = magSq2 (dispVec dmap vUv)) :
    finalRenderFrag dmap ttex btex vUv dispLen = withAlpha (ttex vUv) 1 := by
  have hd0 : dispVec dmap vUv = ⟨0, 0⟩ := hzero vUv
  have hlen0 : dispLen = 0 := by
    apply mul_self_eq_zero.mp
    rw [hsq, hd0]
    unfold magSq2
    ring
  subst hlen0
  cases vUv with
  | mk ux uy =>
    unfold finalRenderFrag
    rw [hd0]
    simp only [smoothstep_tenth_at_zero]
    unfold mix4 mixQ withAlpha
    norm_num

/-- Witness for C5 with concrete textures at coordinate `(0.25, 0.75)`. -/
theorem C5_composite_zero_field_witness :
    finalRenderFrag (fun _ => ⟨0, 0, 7, 9⟩) (fun p => ⟨p.x, p.y, 3, 0.5⟩)
        (fun p => ⟨1, p.x, p.y, 1⟩) ⟨0.25, 0.75⟩ 0 =
      withAlpha ((fun p : Vec2 => (⟨p.x, p.y, 3, 0.5⟩ : Vec4)) ⟨0.25, 0.75⟩) 1 :=
  C5_composite_zero_field (fun _ => ⟨0, 0, 7, 9⟩) (fun p => ⟨p.x, p.y, 3, 0.5⟩)
    (fun p => ⟨1, p.x, p.y, 1⟩) ⟨0.25, 0.75⟩ 0
    (fun _ => by norm_num [dispVec]) le_rfl (by norm_num [dispVec, magSq2])

/-- C6: at displacement magnitude at or above 0.1 the computed top opacity is
exactly 0 and the output is the bottom sample darkened by 0.2; moreover the
opacity function is antitone in the magnitude and equals 1 at magnitude 0. -/
theorem C6_composite_parting (dmap ttex btex : Vec2 → Vec4) (vUv : Vec2)
    (dispLen : ℚ)
    (hsq : dispLen * dispLen = magSq2 (dispVec dmap vUv))
    (hthr : 0.1 ≤ dispLen) :
    smoothstep 0.1 0 dispLen = 0
    ∧ finalRenderFrag dmap ttex btex vUv dispLen =
        darken (btex (offsetBy vUv (dispVec dmap vUv) 0.05)) 0.2
    ∧ smoothstep 0.1 0 0 = 1
    ∧ (∀ l₁ l₂ : ℚ, l₁ ≤ l₂ → smoothstep 0.1 0 l₂ ≤ smoothstep 0.1 0 l₁) := by
  have halpha : smoothstep 0.1 0 dispLen = 0 :=
    smoothstep_falloff_zero (by norm_num) hthr
  refine ⟨halpha, ?_, smoothstep_tenth_at_zero, ?_⟩
  · unfold finalRenderFrag
    dsimp only
    rw [halpha]
    unfold mix4 mixQ darken offsetBy dispVec
    simp only [Vec4.mk.injEq]
    refine ⟨by ring, by ring, by ring, by ring⟩
  · intro l₁ l₂ h
    exact smoothstep_falloff_antitone (by norm_num) h

/-- Witness for C6 with a constant displacement of length exactly 0.1. -/
theorem C6_composite_parting_witness :
    smoothstep 0.1 0 0.1 = 0
    ∧ finalRenderFrag (fun _ => ⟨0.06, 0.08, 0, 0⟩) (fun p => ⟨p.x, p.y, 0, 1⟩)
        (fun _ => ⟨1, 1, 1, 1⟩) ⟨0.5, 0.5⟩ 0.1 =
      darken ((fun _ : Vec2 => (⟨1, 1, 1, 1⟩ : Vec4))
        (offsetBy ⟨0.5, 0.5⟩ (dispVec (fun _ => ⟨0.06, 0.08, 0, 0⟩) ⟨0.5, 0.5⟩) 0.05)) 0.2
    ∧ smoothstep 0.1 0 0 = 1
    ∧ (∀ l₁ l₂ : ℚ, l₁ ≤ l₂ → smoothstep 0.1 0 l₂ ≤ smoothstep 0.1 0 l₁) :=
  C6_composite_parting (fun _ => ⟨0.06, 0.08, 0, 0⟩) (fun p => ⟨p.x, p.y, 0, 1⟩)
    (fun _ => ⟨1, 1, 1, 1⟩) ⟨0.5, 0.5⟩ 0.1
    (by norm_num [dispVec, magSq2]) le_rfl

/-- Identifier of one of the two physical off-screen render targets allocated
at src/main.js lines 102-103. -/
inductive Buf where
  | A
  | B
  deriving DecidableEq

/-- The mutable state of the animation loop that the buffer bookkeeping
touches: the pointer-tracking vectors (lines 82-84) and, for the ping-pong
scheme, which physical buffer each of `currentRenderTarget`,
`previousRenderTarget`, and the two texture uniforms (`uLastFrame` of the
update material, line 109, and `uDisplacementMap` of the final material,
line 145) refers to. -/
structure SimState where
  mouse : Vec2
  lastMouse : Vec2
  mouseVelocity : Vec2
  currentRenderTarget : Buf
  previousRenderTarget : Buf
  uLastFrame : Buf
  uDisplacementMap : Buf
  deriving DecidableEq

/-- The initial state built by `LIQUID_HERO.init` (lines 82-84, 102-103, 109,
145): pointer vectors at their sentinel values, buffer `A` current, buffer `B`
previous, the update material reading `B` and the final material reading `A`. -/
def initState : SimState :=
  { mouse := ⟨-1, -1⟩
    lastMouse := ⟨-1, -1⟩
    mouseVelocity := ⟨0, 0⟩
    currentRenderTarget := Buf.A
    previousRenderTarget := Buf.B
    uLastFrame := Buf.B
    uDisplacementMap := Buf.A }

/-- The render-target swap at the end of a frame (src/main.js lines 200-206):
exchange the two target references and point `uLastFrame` at the new previous
target and `uDisplacementMap` at the new current target. -/
def swapTargets (s : SimState) : SimState :=
  let temp := s.previousRenderTarget
  let previous := s.currentRenderTarget
  let current := temp
  { s with currentRenderTarget := current
           previousRenderTarget := previous
           uLastFrame := previous
           uDisplacementMap := current }

/-- The kind of shader material bound to the full-screen quad for a render
call. -/
inductive Pass where
  | displacementUpdate
  | finalRender
  deriving DecidableEq

/-- Where a render call writes: an off-screen target, or the visible canvas
(`renderer.setRenderTarget(null)`). -/
inductive RenderSurface where
  | offscreen (b : Buf)
  | screen
  deriving DecidableEq

/-- One `renderer.render` call: the bound material, the surface written, and
the physical buffer whose texture the material samples. -/
structure RenderCall where
  pass : Pass
  target : RenderSurface
  reads : Buf
  deriving DecidableEq

/-- One iteration of `animate` (src/main.js lines 183-207): recompute the
pointer velocity from the delta since the last frame and sample the pointer,
render the update pass into the current target (its material reading the
`uLastFrame` texture), render the final pass to the screen (its material
reading the `uDisplacementMap` texture), then swap the targets.  The returned
list records the two render calls in the order they are issued. -/
def animateStep (s : SimState) : SimState × List RenderCall :=
  let s₁ := { s with mouseVelocity := vsub s.mouse s.lastMouse
                     lastMouse := s.mouse }
  let pass1 : RenderCall :=
    ⟨Pass.displacementUpdate, RenderSurface.offscreen s₁.currentRenderTarget, s₁.uLastFrame⟩
  let pass2 : RenderCall :=
    ⟨Pass.finalRender, RenderSurface.screen, s₁.uDisplacementMap⟩
  (swapTargets s₁, [pass1, pass2])

/-- The `mousemove`/`touchmove` handler `updateMousePosition` (src/main.js
lines 87-92): overwrite the latest pointer position, computed from the event
client coordinates and the canvas bounding rectangle. -/
def updateMousePosition (s : SimState)
    (clientX clientY rectLeft rectTop rectWidth rectHeight : ℚ) : SimState :=
  { s with mouse := ⟨(clientX - rectLeft) / rectWidth,
                     1 - (clientY - rectTop) / rectHeight⟩ }

/-- C7: the target swap restores both buffer roles after two applications (on
states satisfying the uniform-wiring invariant it is a full involution), and
from a state whose two roles are held by distinct buffers one swap again
leaves the two roles on distinct buffers, exchanged. -/
theorem C7_swap_involution (s : SimState) :
    (swapTargets (swapTargets s)).currentRenderTarget = s.currentRenderTarget
    ∧ (swapTargets (swapTargets s)).previousRenderTarget = s.previousRenderTarget
    ∧ (s.uLastFrame = s.previousRenderTarget →
        s.uDisplacementMap = s.currentRenderTarget →
        swapTargets (swapTargets s) = s)
    ∧ (s.currentRenderTarget ≠ s.previousRenderTarget →
        (swapTargets s).currentRenderTarget ≠ (swapTargets s).previousRenderTarget
        ∧ (swapTargets s).currentRenderTarget = s.previousRenderTarget
        ∧ (swapTargets s).previousRenderTarget = s.currentRenderTarget) := by
  refine ⟨rfl, rfl, ?_, ?_⟩
  · intro h1 h2
    cases s
    simp only [swapTargets] at *
    simp [h1, h2]
  · intro hne
    exact ⟨fun h => hne h.symm, rfl, rfl⟩

/-- Witness for C7 at the initial state. -/
theorem C7_swap_involution_witness :
    (swapTargets (swapTargets initState)).currentRenderTarget = initState.currentRenderTarget
    ∧ (swapTargets (swapTargets initState)).previousRenderTarget = initState.previousRenderTarget
    ∧ swapTargets (swapTargets initState) = initState
    ∧ ((swapTargets initState).currentRenderTarget ≠ (swapTargets initState).previousRenderTarget
        ∧ (swapTargets initState).currentRenderTarget = initState.previousRenderTarget
        ∧ (swapTargets initState).previousRenderTarget = initState.currentRenderTarget) :=
  have h := C7_swap_involution initState
  ⟨h.1, h.2.1, h.2.2.1 rfl rfl, h.2.2.2 (by decide)⟩

/-- C8: a frame with consistently wired uniforms and distinct buffer roles
issues exactly two render calls in order — the update pass writing the current
target while reading the previous one, then the composite pass reading that
freshly written target and writing the screen — computes the new velocity once
as the pointer delta since the last frame, swaps the roles afterwards while
preserving the invariant, and no call reads the buffer it writes; pointer
events change only the latest pointer position, never the velocity. -/
theorem C8_frame_loop_order (s : SimState)
    (hu1 : s.uLastFrame = s.previousRenderTarget)
    (hu2 : s.uDisplacementMap = s.currentRenderTarget)
    (hne : s.currentRenderTarget ≠ s.previousRenderTarget) :
    (animateStep s).2 =
      [⟨Pass.displacementUpdate, RenderSurface.offscreen s.currentRenderTarget,
          s.previousRenderTarget⟩,
        ⟨Pass.finalRender, RenderSurface.screen, s.currentRenderTarget⟩]
    ∧ (animateStep s).1.mouseVelocity = vsub s.mouse s.lastMouse
    ∧ (animateStep s).1.lastMouse = s.mouse
    ∧ (∀ c ∈ (animateStep s).2, ∀ b : Buf,
        c.target = RenderSurface.offscreen b → c.reads ≠ b)
    ∧ (animateStep s).1.currentRenderTarget = s.previousRenderTarget
    ∧ (animateStep s).1.previousRenderTarget = s.currentRenderTarget
    ∧ (animateStep s).1.uLastFrame = (animateStep s).1.previousRenderTarget
    ∧ (animateStep s).1.uDisplacementMap = (animateStep s).1.currentRenderTarget
    ∧ (animateStep s).1.currentRenderTarget ≠ (animateStep s).1.previousRenderTarget
    ∧ (∀ cx cy rl rt rw rh : ℚ,
        (updateMousePosition s cx cy rl rt rw rh).mouseVelocity = s.mouseVelocity
        ∧ (updateMousePosition s cx cy rl rt rw rh).lastMouse = s.lastMouse
        ∧ (updateMousePosition s cx cy rl rt rw rh).currentRenderTarget = s.currentRenderTarget
        ∧ (updateMousePosition s cx cy rl rt rw rh).previousRenderTarget = s.previousRenderTarget) := by
  refine ⟨?_, rfl, rfl, ?_, rfl, rfl, rfl, rfl, ?_, ?_⟩
  · simp only [animateStep, hu1, hu2]
  · intro c hc b hb
    simp only [animateStep, List.mem_cons, List.mem_singleton] at hc
    rcases hc with h | h | h
    · subst h
      simp only [RenderSurface.offscreen.injEq] at hb
      subst hb
      simpa [hu1] using fun h => hne h.symm
    · subst h
      simp at hb
    · cases h
  · simpa [animateStep, swapTargets] using fun h => hne h.symm
  · intro cx cy rl rt rw rh
    exact ⟨rfl, rfl, rfl, rfl⟩

/-- Witness for C8 at the initial state. -/
theorem C8_frame_loop_order_witness :
    (animateStep initState).2 =
      [⟨Pass.displacementUpdate, RenderSurface.offscreen initState.currentRenderTarget,
          initState.previousRenderTarget⟩,
        ⟨Pass.finalRender, RenderSurface.screen, initState.currentRenderTarget⟩]
    ∧ (animateStep initState).1.mouseVelocity = vsub initState.mouse initState.lastMouse
    ∧ (animateStep initState).1.lastMouse = initState.mouse
    ∧ (∀ c ∈ (animateStep initState).2, ∀ b : Buf,
        c.target = RenderSurface.offscreen b → c.reads ≠ b)
    ∧ (animateStep initState).1.currentRenderTarget = initState.previousRenderTarget
    ∧ (animateStep initState).1.previousRenderTarget = initState.currentRenderTarget
    ∧ (animateStep initState).1.uLastFrame = (animateStep initState).1.previousRenderTarget
    ∧ (animateStep initState).1.uDisplacementMap = (animateStep initState).1.currentRenderTarget
    ∧ (animateStep initState).1.currentRenderTarget ≠ (animateStep initState).1.previousRenderTarget
    ∧ (∀ cx cy rl rt rw rh : ℚ,
        (updateMousePosition initState cx cy rl rt rw rh).mouseVelocity = initState.mouseVelocity
        ∧ (updateMousePosition initState cx cy rl rt rw rh).lastMouse = initState.lastMouse
        ∧ (updateMousePosition initState cx cy rl rt rw rh).currentRenderTarget = initState.currentRenderTarget
        ∧ (updateMousePosition initState cx cy rl rt rw rh).previousRenderTarget = initState.previousRenderTarget) :=
  C8_frame_loop_order initState rfl rfl (by decide)

/-- One entry of `static/data/items.json` (src/main.go lines 14-21). -/
structure Item where
  id : Int
  keywordTitle : String
  texts : List String
  videoPath : List String
  videoCredit : List String
  itemLink : String

/-- Model of the parsed template set: executing the home template with the
data map (`Title`, `Items`) either renders a body or fails, as
`tmpl.ExecuteTemplate(w, "home.html", data)` does. -/
def Template : Type :=
  String × List Item → Except String String

/-- The effectful collaborators of server startup, supplied as data: the
working-directory lookup, the file open (returning raw content), the JSON
decode, and the template parse.  An `Except.error` models a failed Go call
(`err != nil`). -/
structure GoEnv where
  getwd : Except String String
  openFile : String → Except String String
  decodeItems : String → Except String (List Item)
  parseTemplates : List String → Except String Template

/-- The path `filepath.Join(currDir, "static", "data", "items.json")`
(src/main.go line 31). -/
def itemsFilePath (currDir : String) : String :=
  currDir ++ "/static/data/items.json"

/-- The three template files parsed at startup (src/main.go lines 60-64). -/
def templateFiles : List String :=
  ["templates/header.html", "templates/footer.html", "templates/home.html"]

/-- The package-level state left by a successful startup: the decoded catalog
and the parsed templates (src/main.go lines 23-24). -/
structure ServerState where
  items : List Item
  tmpl : Template

/-- The startup loader `loadItems` (src/main.go lines 26-42): each failing
step calls `log.Fatalf`, modelled by returning that error (process exit, no
degraded result). -/
def loadItems (env : GoEnv) : Except String (List Item) :=
  match env.getwd with
  | Except.error e => Except.error e
  | Except.ok currDir =>
    match env.openFile (itemsFilePath currDir) with
    | Except.error e => Except.error e
    | Except.ok f => env.decodeItems f

/-- The startup sequence of `main` before routes are registered (src/main.go
lines 54-67): load the catalog, then parse the templates; any failure is fatal
(`log.Fatalf`), modelled as an error result with no server state. -/
def serverStartup (env : GoEnv) : Except String ServerState :=
  match loadItems env with
  | Except.error e => Except.error e
  | Except.ok its =>
    match env.parseTemplates templateFiles with
    | Except.error e => Except.error e
    | Except.ok t => Except.ok ⟨its, t⟩

/-- An HTTP response: status code and body. -/
structure Response where
  status : Nat
  body : String

/-- The handler for `/` (src/main.go lines 44-52): execute the home template
with title `BlendingWaves` and the full catalog; on failure reply
`http.Error(w, err.Error(), http.StatusInternalServerError)` — a 500 response
to this request only, leaving the server state untouched. -/
def homeHandler (st : ServerState) : Response × ServerState :=
  match st.tmpl ("BlendingWaves", st.items) with
  | Except.ok body => (⟨200, body⟩, st)
  | Except.error e => (⟨500, e⟩, st)

/-- C9: each of the four startup steps (working directory, file open, JSON
decode, template parse) is fatal on failure — startup yields no server state —
whereas a template-execution failure inside the home handler produces a 500
response for that request and returns the server state unchanged, and a
successful execution produces a 200 response. -/
theorem C9_startup_fatal_request_isolated :
    (∀ (env : GoEnv) (msg : String), env.getwd = Except.error msg →
      serverStartup env = Except.error msg)
    ∧ (∀ (env : GoEnv) (d msg : String), env.getwd = Except.ok d →
      env.openFile (itemsFilePath d) = Except.error msg →
      serverStartup env = Except.error msg)
    ∧ (∀ (env : GoEnv) (d f msg : String), env.getwd = Except.ok d →
      env.openFile (itemsFilePath d) = Except.ok f →
      env.decodeItems f = Except.error msg →
      serverStartup env = Except.error msg)
    ∧ (∀ (env : GoEnv) (its : List Item) (msg : String),
      loadItems env = Except.ok its →
      env.parseTemplates templateFiles = Except.error msg →
      serverStartup env = Except.error msg)
    ∧ (∀ (st : ServerState) (e : String),
      st.tmpl ("BlendingWaves", st.items) = Except.error e →
      homeHandler st = (⟨500, e⟩, st))
    ∧ (∀ (st : ServerState) (b : String),
      st.tmpl ("BlendingWaves", st.items) = Except.ok b →
      homeHandler st = (⟨200, b⟩, st)) := by
  refine ⟨?_, ?_, ?_, ?_, ?_, ?_⟩
  · intro env msg h
    simp [serverStartup, loadItems, h]
  · intro env d msg h1 h2
    simp [serverStartup, loadItems, h1, h2]
  · intro env d f msg h1 h2 h3
    simp [serverStartup, loadItems, h1, h2, h3]
  · intro env its msg h1 h2
    simp [serverStartup, h1, h2]
  · intro st e h
    simp [homeHandler, h]
  · intro st b h
    simp [homeHandler, h]

/-- Startup environment whose working-directory lookup fails. -/
def envFailWd : GoEnv :=
  { getwd := Except.error "wd-fail"
    openFile := fun _ => Except.error "unused"
    decodeItems := fun _ => Except.error "unused"
    parseTemplates := fun _ => Except.error "unused" }

/-- Startup environment whose catalog file cannot be opened. -/
def envFailOpen : GoEnv :=
  { getwd := Except.ok "root"
    openFile := fun _ => Except.error "open-fail"
    decodeItems := fun _ => Except.error "unused"
    parseTemplates := fun _ => Except.error "unused" }

/-- Startup environment whose catalog file does not decode. -/
def envFailDecode : GoEnv :=
  { getwd := Except.ok "root"
    openFile := fun _ => Except.ok "raw"
    decodeItems := fun _ => Except.error "decode-fail"
    parseTemplates := fun _ => Except.error "unused" }

/-- Startup environment whose templates do not parse. -/
def envFailParse : GoEnv :=
  { getwd := Except.ok "root"
    openFile := fun _ => Except.ok "raw"
    decodeItems := fun _ => Except.ok []
    parseTemplates := fun _ => Except.error "parse-fail" }

/-- Server state whose home template always fails to execute. -/
def stFailExec : ServerState :=
  { items := [], tmpl := fun _ => Except.error "exec-fail" }

/-- Server state whose home template renders a fixed page. -/
def stOkExec : ServerState :=
  { items := [], tmpl := fun _ => Except.ok "page" }

/-- Witness for C9 on concrete failing environments and handlers. -/
theorem C9_startup_fatal_request_isolated_witness :
    serverStartup envFailWd = Except.error "wd-fail"
    ∧ serverStartup envFailOpen = Except.error "open-fail"
    ∧ serverStartup envFailDecode = Except.error "decode-fail"
    ∧ serverStartup envFailParse = Except.error "parse-fail"
    ∧ homeHandler stFailExec = (⟨500, "exec-fail"⟩, stFailExec)
    ∧ homeHandler stOkExec = (⟨200, "page"⟩, stOkExec) :=
  have h := C9_startup_fatal_request_isolated
  ⟨h.1 envFailWd "wd-fail" rfl,
    h.2.1 envFailOpen "root" "open-fail" rfl rfl,
    h.2.2.1 envFailDecode "root" "raw" "decode-fail" rfl rfl rfl,
    h.2.2.2.1 envFailParse [] "parse-fail" rfl rfl,
    h.2.2.2.2.1 stFailExec "exec-fail" rfl,
    h.2.2.2.2.2 stOkExec "page" rfl⟩

/-- Go net/http ServeMux path matching for one pattern: a pattern not ending
in a slash matches only the identical path; a pattern ending in a slash
matches every path having it as a prefix.  Stated on character lists
(`String.data`) so that it evaluates by reduction. -/
def pathMatch (pattern path : String) : Bool :=
  if pattern.data.getLast? == some '/' then
    List.isPrefixOf pattern.data path.data
  else pattern == path

/-- The patterns registered in `main` (src/main.go lines 70-122), in
registration order. -/
def registeredPatterns : List String :=
  ["/", "/static/", "/styles.css", "/main.js", "/privacy", "/tou", "/non"]

/-- Go net/http ServeMux resolution over a pattern list: among the matching
patterns, the longest wins (the registered patterns have pairwise distinct
lengths except for exact patterns, which are mutually exclusive). -/
def muxMatch : List String → String → Option String
  | [], _ => none
  | p :: ps, path =>
    match muxMatch ps path with
    | none => if pathMatch p path then some p else none
    | some q => if pathMatch p path && Nat.blt q.length p.length then some p else some q

/-- The handler each registered pattern was bound to (src/main.go lines
70-122). -/
inductive GoHandler where
  | home
  | staticDir
  | stylesCss
  | mainJs
  | privacy
  | tou
  | non
  | notFoundHandler
  deriving DecidableEq

/-- The handler bound to a registered pattern. -/
def handlerForPattern (p : String) : GoHandler :=
  if p == "/" then GoHandler.home
  else if p == "/static/" then GoHandler.staticDir
  else if p == "/styles.css" then GoHandler.stylesCss
  else if p == "/main.js" then GoHandler.mainJs
  else if p == "/privacy" then GoHandler.privacy
  else if p == "/tou" then GoHandler.tou
  else if p == "/non" then GoHandler.non
  else GoHandler.notFoundHandler

/-- The handler the server dispatches a request path to; `notFoundHandler` is
the ServeMux 404 fallback when no pattern matches. -/
def routeRequest (path : String) : GoHandler :=
  match muxMatch registeredPatterns path with
  | some p => handlerForPattern p
  | none => GoHandler.notFoundHandler

lemma muxMatch_mem :
    ∀ (ps : List String) (path q : String), muxMatch ps path = some q → q ∈ ps := by
  intro ps
  induction ps with
  | nil =>
    intro path q h
    simp [muxMatch] at h
  | cons p ps ih =>
    intro path q h
    rw [muxMatch] at h
    cases hm : muxMatch ps path with
    | none =>
      rw [hm] at h
      by_cases hc : pathMatch p path = true
      · rw [if_pos hc] at h
        cases h
        exact List.mem_cons_self p ps
      · rw [if_neg hc] at h
        cases h
    | some r =>
      rw [hm] at h
      dsimp only at h
      by_cases hc : (pathMatch p path && Nat.blt r.length p.length) = true
      · rw [if_pos hc] at h
        cases h
        exact List.mem_cons_self p ps
      · rw [if_neg hc] at h
        cases h
        exact List.mem_cons_of_mem p (ih path q hm)

lemma muxMatch_cons_total (p : String) (ps : List String) (path : String)
    (h : pathMatch p path = true) :
    ∃ q, muxMatch (p :: ps) path = some q ∧ (q = p ∨ q ∈ ps) := by
  cases hm : muxMatch ps path with
  | none =>
    exact ⟨p, by rw [muxMatch, hm, if_pos h], Or.inl rfl⟩
  | some r =>
    by_cases hc : (pathMatch p path && Nat.blt r.length p.length) = true
    · exact ⟨p, by rw [muxMatch, hm]; dsimp only; rw [if_pos hc], Or.inl rfl⟩
    · exact ⟨r, by rw [muxMatch, hm]; dsimp only; rw [if_neg hc],
        Or.inr (muxMatch_mem ps path r hm)⟩

/-- C10: every path matched by the root pattern but by none of the six
specific patterns is dispatched to the home handler (in particular
`/nonexistent`), that handler renders with the full catalog, and no path
matched by the root pattern is ever dispatched to the 404 fallback. -/
theorem C10_unknown_paths_fall_through_to_home :
    (∀ path : String, pathMatch "/" path = true →
      muxMatch registeredPatterns path ≠ none)
    ∧ (∀ path : String, pathMatch "/" path = true →
      pathMatch "/static/" path = false →
      pathMatch "/styles.css" path = false →
      pathMatch "/main.js" path = false →
      pathMatch "/privacy" path = false →
      pathMatch "/tou" path = false →
      pathMatch "/non" path = false →
      routeRequest path = GoHandler.home)
    ∧ routeRequest "/nonexistent" = GoHandler.home
    ∧ (∀ path : String, pathMatch "/" path = true →
      routeRequest path ≠ GoHandler.notFoundHandler)
    ∧ (∀ (st : ServerState) (b : String),
      st.tmpl ("BlendingWaves", st.items) = Except.ok b →
      homeHandler st = (⟨200, b⟩, st)) := by
  refine ⟨?_, ?_, ?_, ?_, ?_⟩
  · intro path hroot
    obtain ⟨q, hq, _⟩ :=
      muxMatch_cons_total "/" (registeredPatterns.drop 1) path hroot
    rw [registeredPatterns]
    intro hcon
    rw [show ("/" :: registeredPatterns.drop 1) = registeredPatterns from rfl,
      registeredPatterns] at hq
    rw [hq] at hcon
    cases hcon
  · intro path hroot h2 h3 h4 h5 h6 h7
    have t7 : muxMatch ["/non"] path = none := by
      rw [muxMatch, muxMatch, if_neg (by rw [h7]; exact Bool.false_ne_true)]
    have t6 : muxMatch ["/tou", "/non"] path = none := by
      rw [muxMatch, t7, if_neg (by rw [h6]; exact Bool.false_ne_true)]
    have t5 : muxMatch ["/privacy", "/tou", "/non"] path = none := by
      rw [muxMatch, t6, if_neg (by rw [h5]; exact Bool.false_ne_true)]
    have t4 : muxMatch ["/main.js", "/privacy", "/tou", "/non"] path = none := by
      rw [muxMatch, t5, if_neg (by rw [h4]; exact Bool.false_ne_true)]
    have t3 : muxMatch ["/styles.css", "/main.js", "/privacy", "/tou", "/non"] path = none := by
      rw [muxMatch, t4, if_neg (by rw [h3]; exact Bool.false_ne_true)]
    have t2 : muxMatch ["/static/", "/styles.css", "/main.js", "/privacy", "/tou", "/non"] path = none := by
      rw [muxMatch, t3, if_neg (by rw [h2]; exact Bool.false_ne_true)]
    have troot : muxMatch registeredPatterns path = some "/" := by
      rw [registeredPatterns, muxMatch, t2, if_pos hroot]
    rw [routeRequest, troot]
    rfl
  · rfl
  · intro path hroot
    obtain ⟨q, hq, hmem⟩ :=
      muxMatch_cons_total "/" (registeredPatterns.drop 1) path hroot
    have hq2 : muxMatch registeredPatterns path = some q := hq
    rw [routeRequest, hq2]
    have hmem2 : q ∈ registeredPatterns := by
      rcases hmem with h | h
      · rw [h, registeredPatterns]
        exact List.mem_cons_self _ _
      · rw [registeredPatterns]
        exact List.mem_cons_of_mem _ h
    rw [registeredPatterns] at hmem2
    simp only [List.mem_cons, List.not_mem_nil, or_false] at hmem2
    rcases hmem2 with rfl | rfl | rfl | rfl | rfl | rfl | rfl <;> decide
  · intro st b h
    simp [homeHandler, h]

/-- Witness for C10 at the unregistered path `/nonexistent` and a concrete
rendering state. -/
theorem C10_unknown_paths_fall_through_to_home_witness :
    muxMatch registeredPatterns "/nonexistent" ≠ none
    ∧ routeRequest "/nonexistent" = GoHandler.home
    ∧ routeRequest "/nonexistent" ≠ GoHandler.notFoundHandler
    ∧ homeHandler stOkExec = (⟨200, "page"⟩, stOkExec) :=
  have h := C10_unknown_paths_fall_through_to_home
  ⟨h.1 "/nonexistent" (by decide),
    h.2.2.1,
    h.2.2.2.1 "/nonexistent" (by decide),
    h.2.2.2.2 stOkExec "page" rfl⟩

end BW
